import Mathlib

/-!
Verification development for the planefinder-kml ingestion pipeline.

Shallow embedding of:
* `DLEProtocol.extract_frames`  (src/firehose_client.py, lines 33-71)
* `DataProcessor`               (src/data_processor.py)
* `OptimizedKMZGenerator`       (src/kmz_generator.py, cache part)
* `FirehoseClient._process_buffer` frame-decode loop (src/firehose_client.py, 163-186)

Bytes are modelled as `Nat` (every real byte is `< 256`; no arithmetic is
performed on them, only comparisons against the protocol constants, so no
overflow is possible).  Python `dict` objects are modelled as association
lists with insertion-order update semantics.  Wall-clock times are `ℚ`.
-/

namespace DLEProtocol

def DLE : Nat := 0x10
def STX : Nat := 0x02
def ETX : Nat := 0x03

/-- Inner scanning loop of `extract_frames` (lines 47-63): starting just after a
`DLE STX`, walk the buffer looking for `DLE ETX`.  The Python loop reads
`buffer[j]` and `buffer[j+1]` while `j < len(buffer) - 1`; here the suffix of
the buffer from position `j` is passed as a list, so the loop guard becomes
"at least two bytes remain".  Returns `some (frame, rest)` when the terminator
is found (`rest` is the suffix after the `DLE ETX`), `none` when the buffer is
exhausted first (the Python `while ... else` incomplete-frame branch). -/
def scanFrame : List Nat → List Nat → Option (List Nat × List Nat)
  | a :: b :: rest, acc =>
    if a = DLE then
      if b = ETX then
        some (acc.reverse, rest)
      else if b = DLE then
        scanFrame rest (DLE :: acc)
      else
        scanFrame (b :: rest) (a :: acc)
    else
      scanFrame (b :: rest) (a :: acc)
  | _, _ => none

/-- A successful scan consumes at least the two terminator bytes, so the
returned suffix is shorter than the input buffer suffix. -/
theorem scanFrame_rest_length : ∀ (l acc f r : List Nat),
    scanFrame l acc = some (f, r) → r.length + 2 ≤ l.length
  | a :: b :: rest, acc, f, r => fun h => by
    rw [scanFrame] at h
    split at h
    · split at h
      · simp only [Option.some.injEq, Prod.mk.injEq] at h
        simp [← h.2]
      · split at h
        · have := scanFrame_rest_length rest (DLE :: acc) f r h
          simp only [List.length_cons]
          omega
        · have := scanFrame_rest_length (b :: rest) (a :: acc) f r h
          simp only [List.length_cons] at *
          omega
    · have := scanFrame_rest_length (b :: rest) (a :: acc) f r h
      simp only [List.length_cons] at *
      omega
  | [], _, _, _ => fun h => Option.noConfusion h
  | [_], _, _, _ => fun h => Option.noConfusion h

/-- Outer loop of `extract_frames` (lines 38-69): scan for `DLE STX`; on a
completed frame continue after its terminator, on an incomplete frame return
`buffer[i:]` (everything from the start marker on) as the remainder and stop;
a position that does not begin `DLE STX` is skipped (garbage discarded).
The Python guard `i < len(buffer) - 1` again becomes "at least two bytes
remain"; with fewer than two bytes left the loop exits with whatever
`remaining_buffer` already holds (empty unless the incomplete-frame branch
ran, in which case the loop already ended). -/
def extractLoop : List Nat → List (List Nat) × List Nat
  | a :: b :: rest =>
    if a = DLE ∧ b = STX then
      match h : scanFrame rest [] with
      | some (frame, rest2) =>
        let p := extractLoop rest2
        (frame :: p.1, p.2)
      | none => ([], a :: b :: rest)
    else
      extractLoop (b :: rest)
  | _ => ([], [])
termination_by l => l.length
decreasing_by
  · have := scanFrame_rest_length rest [] frame rest2 h
    simp only [List.length_cons]
    omega
  · simp only [List.length_cons]
    omega

/-- `DLEProtocol.extract_frames` (line 33): returns the list of complete
frames found in the buffer and the unconsumed remainder.
(`unstuff_data`, line 74, is the identity on the accumulated payload.) -/
def extract_frames (buffer : List Nat) : List (List Nat) × List Nat :=
  extractLoop buffer

example : extract_frames [0x10, 0x02, 0x41, 0x10, 0x03] = ([[0x41]], []) := by
  simp [extract_frames, extractLoop, scanFrame, DLE, STX, ETX]
example : extract_frames [0x10, 0x02, 0x10, 0x10, 0x10, 0x03] = ([[0x10]], []) := by
  simp [extract_frames, extractLoop, scanFrame, DLE, STX, ETX]
example : extract_frames [0x10, 0x02, 0x41] = ([], [0x10, 0x02, 0x41]) := by
  simp [extract_frames, extractLoop, scanFrame, DLE, STX, ETX]
example : extract_frames [0x10] = ([], []) := by
  simp [extract_frames, extractLoop]
example : extract_frames [0x41, 0x10, 0x02, 0x42, 0x10, 0x03, 0x10, 0x02] =
    ([[0x42]], [0x10, 0x02]) := by
  simp [extract_frames, extractLoop, scanFrame, DLE, STX, ETX]

/-- DLE byte stuffing as specified for the wire format (spec §6): a literal
escape byte inside the payload is represented as two consecutive escape bytes.
Used only to state the stuffing round-trip property. -/
def stuff : List Nat → List Nat
  | [] => []
  | b :: rest => (if b = DLE then [DLE, DLE] else [b]) ++ stuff rest

/-- Wire encoding of one frame (spec §6): `DLE STX` + stuffed payload +
`DLE ETX`. -/
def encodeFrame (p : List Nat) : List Nat :=
  DLE :: STX :: (stuff p ++ [DLE, ETX])

/-- Scanning a stuffed payload followed by the terminator recovers the
payload (appended to the reversed accumulator) and consumes everything. -/
theorem scanFrame_stuff (p : List Nat) : ∀ acc : List Nat,
    scanFrame (stuff p ++ [DLE, ETX]) acc = some (acc.reverse ++ p, []) := by
  induction p with
  | nil =>
    intro acc
    rw [stuff, List.nil_append, scanFrame]
    simp [DLE, ETX]
  | cons b rest ih =>
    intro acc
    by_cases hb : b = DLE
    · subst hb
      have : stuff (DLE :: rest) ++ [DLE, ETX] =
          DLE :: DLE :: (stuff rest ++ [DLE, ETX]) := by
        rw [stuff]; simp
      rw [this, scanFrame]
      rw [if_pos rfl, if_neg (by simp [DLE, ETX]), if_pos rfl, ih (DLE :: acc)]
      simp
    · have hcons : ∃ c t, stuff rest ++ [DLE, ETX] = c :: t := by
        cases hs : stuff rest ++ [DLE, ETX] with
        | nil => exact absurd (congrArg List.length hs) (by simp)
        | cons c t => exact ⟨c, t, rfl⟩
      obtain ⟨c, t, hct⟩ := hcons
      have : stuff (b :: rest) ++ [DLE, ETX] = b :: c :: t := by
        rw [stuff]; simp [hb, hct]
      rw [this, scanFrame, if_neg hb, ← hct, ih (b :: acc)]
      simp

/-- When the buffer begins with a start marker and the scan succeeds, the
outer loop emits the scanned frame and continues after the terminator. -/
theorem extractLoop_start (rest frame rest2 : List Nat)
    (h : scanFrame rest [] = some (frame, rest2)) :
    extractLoop (DLE :: STX :: rest) =
      (frame :: (extractLoop rest2).1, (extractLoop rest2).2) := by
  rw [extractLoop, if_pos ⟨rfl, rfl⟩]
  split
  next frame' rest2' h' =>
    rw [h] at h'
    injection h' with h''
    injection h'' with h1 h2
    rw [h1, h2]
  next h' =>
    rw [h] at h'
    exact Option.noConfusion h'

/-- C4 (stuffing round-trip): for every payload byte sequence `p`, doubling
each escape byte, wrapping with the `DLE STX` / `DLE ETX` markers and running
`extract_frames` on the result yields exactly the single frame `p` and an
empty remainder. -/
theorem c4_stuffing_roundtrip (p : List Nat) (hp : ∀ b ∈ p, b < 256) :
    extract_frames (encodeFrame p) = ([p], []) := by
  have hscan : scanFrame (stuff p ++ [DLE, ETX]) [] = some (p, []) := by
    rw [scanFrame_stuff p []]
    simp
  rw [extract_frames, encodeFrame, extractLoop_start _ p [] hscan]
  simp [extractLoop]

/-- Witness for C4 at the concrete payload `[0x10, 0x41, 0x10]`. -/
theorem c4_stuffing_roundtrip_witness :
    (∀ b ∈ [0x10, 0x41, 0x10], b < 256) ∧
      extract_frames (encodeFrame [0x10, 0x41, 0x10]) = ([[0x10, 0x41, 0x10]], []) :=
  ⟨by decide, c4_stuffing_roundtrip [0x10, 0x41, 0x10] (by decide)⟩

/-- C3: inside a started frame, an escape byte followed by a byte `x` that is
neither the end-of-frame byte nor another escape byte results in both bytes
appearing literally in the emitted payload: the escape byte is not removed and
`x` is copied as literal data (lines 58-60 append `buffer[j]`, the escape
byte, and advance one position, so the following byte is then copied by the
ordinary literal branch). -/
theorem c3_literal_after_escape (x : Nat) (hETX : x ≠ ETX) (hDLE : x ≠ DLE) :
    extract_frames [DLE, STX, DLE, x, DLE, ETX] = ([[DLE, x]], []) := by
  have hscan : scanFrame [DLE, x, DLE, ETX] [] = some ([DLE, x], []) := by
    simp only [DLE, STX, ETX] at hETX hDLE
    simp [scanFrame, DLE, STX, ETX, hETX, hDLE]
  rw [extract_frames,
    show ([DLE, STX, DLE, x, DLE, ETX] : List Nat) = DLE :: STX :: [DLE, x, DLE, ETX] from rfl,
    extractLoop_start _ _ _ hscan]
  simp [extractLoop]

/-- Witness for C3 at `x = 0x41`. -/
theorem c3_literal_after_escape_witness :
    (0x41 ≠ ETX) ∧ (0x41 ≠ DLE) ∧
      extract_frames [DLE, STX, DLE, 0x41, DLE, ETX] = ([[DLE, 0x41]], []) :=
  ⟨by decide, by decide, c3_literal_after_escape 0x41 (by decide) (by decide)⟩

/-- C1 (refuted — code bug): the spec asserts that a start-marker escape byte
whose following byte has not yet arrived is retained in the remainder, making
split decoding equivalent to whole-stream decoding at every offset.  The code
exits its outer loop (guard `i < len(buffer) - 1`) without saving a lone
trailing `0x10`, returning an empty remainder, so the stream
`10 02 41 10 03` split at offset 1 decodes to no frames across two calls while
a single call yields the frame `[0x41]`. -/
theorem c1_split_stream_loses_frame :
    extract_frames [0x10] = ([], []) ∧
    extract_frames ((extract_frames [0x10]).2 ++ [0x02, 0x41, 0x10, 0x03]) = ([], []) ∧
    extract_frames [0x10, 0x02, 0x41, 0x10, 0x03] = ([[0x41]], []) ∧
    (extract_frames [0x10]).1 ++
        (extract_frames ((extract_frames [0x10]).2 ++ [0x02, 0x41, 0x10, 0x03])).1 ≠
      (extract_frames [0x10, 0x02, 0x41, 0x10, 0x03]).1 := by
  refine ⟨?_, ?_, ?_, ?_⟩ <;>
    simp [extract_frames, extractLoop, scanFrame, DLE, STX, ETX]

end DLEProtocol

namespace DataProcessor

/-- One aircraft record (the per-aircraft `Dict` of the feed).  Only the
fields the code reads are modelled; `aircraft.get(k)` returning `None` for a
missing key is an `Option` field being `none`.  `is_on_ground` defaults to
`False` via `aircraft.get("is_on_ground", False)`, so it is a plain `Bool`.
Coordinates are only ever tested for presence; altitudes are compared as
numbers, modelled as `Int`. -/
structure Record where
  adshex : Option String := none
  lat : Option Int := none
  lon : Option Int := none
  altitude : Option Int := none
  is_on_ground : Bool := false
  vert_rate : Option Int := none
  heading : Option Int := none
  speed : Option Int := none
deriving DecidableEq, Repr

/-- Runtime filter configuration (src/data_processor.py line 13): a dict that
may or may not contain the `min_altitude` / `max_altitude` keys; `none`
models an absent key (the code guards each comparison with `"k" in
self.filters`). -/
structure Filters where
  min_altitude : Option Int
  max_altitude : Option Int
deriving DecidableEq, Repr

/-- The default `{"max_altitude": 10000, "min_altitude": 100}`. -/
def defaultFilters : Filters := ⟨some 100, some 10000⟩

/-- The `self.stats` dict (lines 14-22) minus `current_filters` (a copy of
the configuration, irrelevant to the claims).  `filter_pass_rate` is kept as
an exact rational; Python computes it with float division and float `round`,
modelled here by exact division and exact round-half-to-even. -/
structure Stats where
  total_aircraft : Nat
  filtered_aircraft : Nat
  ground_filtered : Nat
  low_altitude_filtered : Nat
  payloads_processed : Nat
  filter_pass_rate : ℚ
deriving DecidableEq, Repr

/-- Initial statistics (all counters 0, pass rate 0.0). -/
def initStats : Stats := ⟨0, 0, 0, 0, 0, 0⟩

/-- Round to the nearest integer, ties to even — the semantics of Python's
builtin `round` (on exact values). -/
def roundHalfEven (q : ℚ) : ℤ :=
  if q - ⌊q⌋ < 1/2 then ⌊q⌋
  else if 1/2 < q - ⌊q⌋ then ⌊q⌋ + 1
  else if ⌊q⌋ % 2 = 0 then ⌊q⌋ else ⌊q⌋ + 1

/-- Python `round(x, 1)`: round to one decimal place. -/
def round1 (q : ℚ) : ℚ := (roundHalfEven (q * 10) : ℚ) / 10

/-- `DataProcessor._passes_filters` (lines 56-81).  Mutation of
`self.stats` by the two rejection counters is modelled by returning the new
`Stats` beside the boolean verdict. -/
def passesFilters (fl : Filters) (st : Stats) (a : Record) : Bool × Stats :=
  if a.lat = none ∨ a.lon = none then
    (false, st)
  else if a.is_on_ground then
    (false, { st with ground_filtered := st.ground_filtered + 1 })
  else
    match a.altitude with
    | none => (false, st)
    | some alt =>
      if (match fl.min_altitude with
          | some m => decide (alt < m)
          | none => false) then
        (false, { st with low_altitude_filtered := st.low_altitude_filtered + 1 })
      else if (match fl.max_altitude with
          | some m => decide (m < alt)
          | none => false) then
        (false, st)
      else
        (true, st)

/-- The `for aircraft in all_aircraft` accumulation loop of
`process_aircraft_data` (lines 35-38), threading the stats through
`_passes_filters` and keeping the accepted records in order. -/
def filterBatch (fl : Filters) : Stats → List Record → List Record × Stats
  | st, [] => ([], st)
  | st, a :: rest =>
    let p := passesFilters fl st a
    let q := filterBatch fl p.2 rest
    (if p.1 then a :: q.1 else q.1, q.2)

/-- `DataProcessor.process_aircraft_data` (lines 29-54) without the callback
notification: bump `payloads_processed`, add the batch size to
`total_aircraft`, filter, add the accepted count to `filtered_aircraft`, and
recompute `filter_pass_rate` when `total_aircraft > 0`.  Returns the new
stats and the accepted list.  (The input dict's `.values()` is taken as the
already-extracted list of records.) -/
def processAircraftData (fl : Filters) (st : Stats) (batch : List Record) :
    Stats × List Record :=
  let st1 : Stats := { st with payloads_processed := st.payloads_processed + 1,
                               total_aircraft := st.total_aircraft + batch.length }
  let fb := filterBatch fl st1 batch
  let st2 : Stats := { fb.2 with filtered_aircraft := fb.2.filtered_aircraft + fb.1.length }
  let st3 : Stats :=
    if 0 < st2.total_aircraft then
      { st2 with
        filter_pass_rate :=
          round1 (((st2.filtered_aircraft : ℚ) / (st2.total_aircraft : ℚ)) * 100) }
    else st2
  (st3, fb.1)

/-- A registered callback: receives the accepted list and either returns or
raises (modelled as `Except`). -/
def Callback : Type := List Record → Except String Unit

/-- The notification loop (lines 48-52): every callback is called with the
accepted list; a raised exception is caught (its message is logged) and the
loop continues, so each call's outcome is simply recorded in order. -/
def notifyLoop (accepted : List Record) : List Callback → List (Except String Unit)
  | [] => []
  | cb :: rest => cb accepted :: notifyLoop accepted rest

/-- Full `process_aircraft_data` (lines 29-54) including the
`if filtered_aircraft and self.callbacks` guard (line 47); returns stats,
accepted records and the trace of callback outcomes. -/
def process_aircraft_data (fl : Filters) (st : Stats) (cbs : List Callback)
    (batch : List Record) : Stats × List Record × List (Except String Unit) :=
  let r := processAircraftData fl st batch
  let trace := if !r.2.isEmpty && !cbs.isEmpty then notifyLoop r.2 cbs else []
  (r.1, r.2, trace)

/-- Folding a sequence of batches through the processor from a starting
state. -/
def runBatches (fl : Filters) (st : Stats) (batches : List (List Record)) : Stats :=
  batches.foldl (fun s b => (processAircraftData fl s b).1) st

example :
    (processAircraftData defaultFilters initStats
      [{ lat := some 51, lon := some 0, altitude := some 5000 },
       { lat := some 51, lon := some 0, altitude := some 5000, is_on_ground := true },
       { lat := some 51, lon := some 0, altitude := some 50 }]).1 =
    { total_aircraft := 3, filtered_aircraft := 1, ground_filtered := 1,
      low_altitude_filtered := 1, payloads_processed := 1,
      filter_pass_rate := 333/10 } := by
  simp [processAircraftData, filterBatch, passesFilters, initStats, defaultFilters]
  norm_num [round1, roundHalfEven]

/-- `_passes_filters` leaves `total_aircraft`, `filtered_aircraft`,
`payloads_processed` and the pass rate untouched and can only increase the
two rejection counters. -/
theorem passesFilters_stats (fl : Filters) (st : Stats) (a : Record) :
    (passesFilters fl st a).2.total_aircraft = st.total_aircraft ∧
    (passesFilters fl st a).2.filtered_aircraft = st.filtered_aircraft ∧
    (passesFilters fl st a).2.payloads_processed = st.payloads_processed ∧
    (passesFilters fl st a).2.filter_pass_rate = st.filter_pass_rate ∧
    st.ground_filtered ≤ (passesFilters fl st a).2.ground_filtered ∧
    st.low_altitude_filtered ≤ (passesFilters fl st a).2.low_altitude_filtered := by
  unfold passesFilters
  split
  · exact ⟨rfl, rfl, rfl, rfl, le_refl _, le_refl _⟩
  · split
    · exact ⟨rfl, rfl, rfl, rfl, Nat.le_succ _, le_refl _⟩
    · split
      · exact ⟨rfl, rfl, rfl, rfl, le_refl _, le_refl _⟩
      · split
        · exact ⟨rfl, rfl, rfl, rfl, le_refl _, Nat.le_succ _⟩
        · split
          · exact ⟨rfl, rfl, rfl, rfl, le_refl _, le_refl _⟩
          · exact ⟨rfl, rfl, rfl, rfl, le_refl _, le_refl _⟩

/-- A record with both coordinates, not on ground, with an altitude between
the configured bounds, passes the filters with no stats change — from any
stats state. -/
theorem passesFilters_accept (fl : Filters) (st : Stats) (a : Record) (alt : Int)
    (hlat : a.lat ≠ none) (hlon : a.lon ≠ none) (hg : a.is_on_ground = false)
    (halt : a.altitude = some alt)
    (hmin : ∀ m, fl.min_altitude = some m → m ≤ alt)
    (hmax : ∀ m, fl.max_altitude = some m → alt ≤ m) :
    passesFilters fl st a = (true, st) := by
  have hminb : (match fl.min_altitude with
      | some m => decide (alt < m) | none => false) = false := by
    cases hm : fl.min_altitude with
    | none => rfl
    | some m => simpa using not_lt.2 (hmin m hm)
  have hmaxb : (match fl.max_altitude with
      | some m => decide (m < alt) | none => false) = false := by
    cases hm : fl.max_altitude with
    | none => rfl
    | some m => simpa using not_lt.2 (hmax m hm)
  simp [passesFilters, hlat, hlon, hg, halt, hminb, hmaxb]

/-- A record accepted from every stats state is in `filterBatch`'s accepted
output whenever it is in the input batch. -/
theorem filterBatch_mem (fl : Filters) (a : Record)
    (hpass : ∀ s : Stats, (passesFilters fl s a).1 = true) :
    ∀ (batch : List Record) (st : Stats), a ∈ batch → a ∈ (filterBatch fl st batch).1 := by
  intro batch
  induction batch with
  | nil => intro st h; cases h
  | cons b rest ih =>
    intro st h
    simp only [filterBatch]
    rcases List.mem_cons.1 h with rfl | hmem
    · simp [hpass st]
    · have htail := ih (passesFilters fl st b).2 hmem
      split
      · exact List.mem_cons_of_mem _ htail
      · exact htail

/-- The accumulation loop leaves `total_aircraft`, `filtered_aircraft`,
`payloads_processed` and the pass rate untouched and can only increase the
rejection counters. -/
theorem filterBatch_stats (fl : Filters) :
    ∀ (batch : List Record) (st : Stats),
      (filterBatch fl st batch).2.total_aircraft = st.total_aircraft ∧
      (filterBatch fl st batch).2.filtered_aircraft = st.filtered_aircraft ∧
      (filterBatch fl st batch).2.payloads_processed = st.payloads_processed ∧
      (filterBatch fl st batch).2.filter_pass_rate = st.filter_pass_rate ∧
      st.ground_filtered ≤ (filterBatch fl st batch).2.ground_filtered ∧
      st.low_altitude_filtered ≤ (filterBatch fl st batch).2.low_altitude_filtered := by
  intro batch
  induction batch with
  | nil => intro st; exact ⟨rfl, rfl, rfl, rfl, le_refl _, le_refl _⟩
  | cons b rest ih =>
    intro st
    simp only [filterBatch]
    obtain ⟨p1, p2, p3, p4, p5, p6⟩ := passesFilters_stats fl st b
    obtain ⟨q1, q2, q3, q4, q5, q6⟩ := ih (passesFilters fl st b).2
    exact ⟨q1.trans p1, q2.trans p2, q3.trans p3, q4.trans p4,
      le_trans p5 q5, le_trans p6 q6⟩

/-- C5 (filter determinism): the five checks are applied in fixed order with
rejection at the first failing check; a record missing a coordinate is
rejected with no counter change; an on-ground record (that reached check 2)
bumps exactly the ground counter; a record below the configured minimum
altitude (that reached check 4) bumps exactly the low-altitude counter; a
record passing all five checks is accepted with no counter change and, when
it is in a processed batch, appears in the accepted output. -/
theorem c5_filter_determinism (fl : Filters) (st : Stats) (a : Record) :
    ((a.lat = none ∨ a.lon = none) → passesFilters fl st a = (false, st)) ∧
    (a.lat ≠ none → a.lon ≠ none → a.is_on_ground = true →
      passesFilters fl st a =
        (false, { st with ground_filtered := st.ground_filtered + 1 })) ∧
    (∀ alt m, a.lat ≠ none → a.lon ≠ none → a.is_on_ground = false →
      a.altitude = some alt → fl.min_altitude = some m → alt < m →
      passesFilters fl st a =
        (false, { st with low_altitude_filtered := st.low_altitude_filtered + 1 })) ∧
    (∀ alt, a.lat ≠ none → a.lon ≠ none → a.is_on_ground = false →
      a.altitude = some alt →
      (∀ m, fl.min_altitude = some m → m ≤ alt) →
      (∀ m, fl.max_altitude = some m → alt ≤ m) →
      passesFilters fl st a = (true, st)) ∧
    (∀ (batch : List Record) (alt : Int), a ∈ batch →
      a.lat ≠ none → a.lon ≠ none → a.is_on_ground = false →
      a.altitude = some alt →
      (∀ m, fl.min_altitude = some m → m ≤ alt) →
      (∀ m, fl.max_altitude = some m → alt ≤ m) →
      a ∈ (processAircraftData fl st batch).2) := by
  refine ⟨?_, ?_, ?_, ?_, ?_⟩
  · intro h
    simp [passesFilters, h]
  · intro hlat hlon hg
    simp [passesFilters, hlat, hlon, hg]
  · intro alt m hlat hlon hg halt hmin hlt
    simp [passesFilters, hlat, hlon, hg, halt, hmin, hlt]
  · intro alt hlat hlon hg halt hmin hmax
    exact passesFilters_accept fl st a alt hlat hlon hg halt hmin hmax
  · intro batch alt hmem hlat hlon hg halt hmin hmax
    have hpass : ∀ s : Stats, (passesFilters fl s a).1 = true := fun s => by
      rw [passesFilters_accept fl s a alt hlat hlon hg halt hmin hmax]
    simp only [processAircraftData]
    exact filterBatch_mem fl a hpass batch _ hmem

/-- Witness for C5: each conjunct applied at a concrete record (and the
default filter configuration `min 100` / `max 10000`). -/
theorem c5_filter_determinism_witness :
    (passesFilters defaultFilters initStats { lat := none } = (false, initStats)) ∧
    (passesFilters defaultFilters initStats
        { lat := some 1, lon := some 2, is_on_ground := true } =
      (false, { initStats with ground_filtered := initStats.ground_filtered + 1 })) ∧
    (passesFilters defaultFilters initStats
        { lat := some 1, lon := some 2, altitude := some 50 } =
      (false, { initStats with
                low_altitude_filtered := initStats.low_altitude_filtered + 1 })) ∧
    (passesFilters defaultFilters initStats
        { lat := some 1, lon := some 2, altitude := some 5000 } = (true, initStats)) ∧
    ({ lat := some 1, lon := some 2, altitude := some 5000 } : Record) ∈
      (processAircraftData defaultFilters initStats
        [{ lat := some 1, lon := some 2, altitude := some 5000 }]).2 := by
  refine ⟨?_, ?_, ?_, ?_, ?_⟩
  · exact (c5_filter_determinism defaultFilters initStats _).1 (Or.inl rfl)
  · exact (c5_filter_determinism defaultFilters initStats _).2.1
      (by simp) (by simp) rfl
  · exact (c5_filter_determinism defaultFilters initStats _).2.2.1 50 100
      (by simp) (by simp) rfl rfl rfl (by decide)
  · exact (c5_filter_determinism defaultFilters initStats _).2.2.2.1 5000
      (by simp) (by simp) rfl rfl
      (fun m hm => by simp [defaultFilters] at hm; omega)
      (fun m hm => by simp [defaultFilters] at hm; omega)
  · exact (c5_filter_determinism defaultFilters initStats _).2.2.2.2
      [{ lat := some 1, lon := some 2, altitude := some 5000 }] 5000
      (by simp) (by simp) (by simp) rfl rfl
      (fun m hm => by simp [defaultFilters] at hm; omega)
      (fun m hm => by simp [defaultFilters] at hm; omega)

/-- One `process_aircraft_data` call bumps `payloads_processed` by one, adds
the batch size to `total_aircraft`, adds the accepted count to
`filtered_aircraft`, and can only increase the rejection counters. -/
theorem processAircraftData_counters (fl : Filters) (st : Stats) (b : List Record) :
    (processAircraftData fl st b).1.payloads_processed = st.payloads_processed + 1 ∧
    (processAircraftData fl st b).1.total_aircraft = st.total_aircraft + b.length ∧
    (processAircraftData fl st b).1.filtered_aircraft =
      st.filtered_aircraft + (processAircraftData fl st b).2.length ∧
    st.ground_filtered ≤ (processAircraftData fl st b).1.ground_filtered ∧
    st.low_altitude_filtered ≤ (processAircraftData fl st b).1.low_altitude_filtered := by
  obtain ⟨f1, f2, f3, f4, f5, f6⟩ := filterBatch_stats fl b
    { st with payloads_processed := st.payloads_processed + 1,
              total_aircraft := st.total_aircraft + b.length }
  simp only [processAircraftData]
  refine ⟨?_, ?_, ?_, ?_, ?_⟩ <;> split <;> simp_all

/-- The pass rate after one call: recomputed from the new counters when the
new total is positive, untouched when the total is still zero. -/
theorem processAircraftData_rate (fl : Filters) (st : Stats) (b : List Record) :
    (0 < st.total_aircraft + b.length →
      (processAircraftData fl st b).1.filter_pass_rate =
        round1 ((((processAircraftData fl st b).1.filtered_aircraft : ℚ) /
          ((processAircraftData fl st b).1.total_aircraft : ℚ)) * 100)) ∧
    (st.total_aircraft + b.length = 0 →
      (processAircraftData fl st b).1.filter_pass_rate = st.filter_pass_rate) := by
  obtain ⟨f1, f2, f3, f4, f5, f6⟩ := filterBatch_stats fl b
    { st with payloads_processed := st.payloads_processed + 1,
              total_aircraft := st.total_aircraft + b.length }
  simp only [processAircraftData]
  constructor
  · intro hpos
    rw [if_pos (by simp_all)]
  · intro h0
    rw [if_neg (by simp_all)]
    simp_all

/-- The consistency relation between the pass-rate field and the counters
that `process_aircraft_data` maintains. -/
def statsConsistent (s : Stats) : Prop :=
  (s.total_aircraft = 0 → s.filtered_aircraft = 0 ∧ s.filter_pass_rate = 0) ∧
  (0 < s.total_aircraft →
    s.filter_pass_rate =
      round1 (((s.filtered_aircraft : ℚ) / (s.total_aircraft : ℚ)) * 100))

theorem statsConsistent_init : statsConsistent initStats :=
  ⟨fun _ => ⟨rfl, rfl⟩, fun h => absurd h (by simp [initStats])⟩

theorem statsConsistent_step (fl : Filters) (s : Stats) (b : List Record)
    (hs : statsConsistent s) : statsConsistent (processAircraftData fl s b).1 := by
  obtain ⟨c1, c2, c3, c4, c5⟩ := processAircraftData_counters fl s b
  obtain ⟨r1, r2⟩ := processAircraftData_rate fl s b
  constructor
  · intro h0
    rw [c2] at h0
    have hts : s.total_aircraft = 0 := by omega
    have hbl : b.length = 0 := by omega
    have hb : b = [] := List.length_eq_zero.1 hbl
    subst hb
    have hacc : (processAircraftData fl s []).2 = [] := rfl
    constructor
    · rw [c3, hacc, (hs.1 hts).1]
      rfl
    · rw [r2 (by omega), (hs.1 hts).2]
  · intro hpos
    rw [c2] at hpos
    exact r1 hpos

/-- Appending one more batch to a run is one more processing step. -/
theorem runBatches_snoc (fl : Filters) (st : Stats) (batches : List (List Record))
    (b : List Record) :
    runBatches fl st (batches ++ [b]) =
      (processAircraftData fl (runBatches fl st batches) b).1 := by
  simp [runBatches]

theorem statsConsistent_fold (fl : Filters) :
    ∀ (batches : List (List Record)) (s : Stats), statsConsistent s →
      statsConsistent (runBatches fl s batches)
  | [], _, hs => hs
  | b :: rest, s, hs =>
    statsConsistent_fold fl rest ((processAircraftData fl s b).1)
      (statsConsistent_step fl s b hs)

/-- C6 (FilterStats invariant): processing one more batch after any sequence
of batches never decreases any of the five counters, and after every sequence
of batches the pass rate equals `passed / total × 100` rounded to one decimal
(round half to even), and equals 0 whenever the total-seen counter is 0. -/
theorem c6_filterstats_invariant (fl : Filters) (batches : List (List Record))
    (b : List Record) :
    (runBatches fl initStats batches).payloads_processed ≤
      (runBatches fl initStats (batches ++ [b])).payloads_processed ∧
    (runBatches fl initStats batches).total_aircraft ≤
      (runBatches fl initStats (batches ++ [b])).total_aircraft ∧
    (runBatches fl initStats batches).filtered_aircraft ≤
      (runBatches fl initStats (batches ++ [b])).filtered_aircraft ∧
    (runBatches fl initStats batches).ground_filtered ≤
      (runBatches fl initStats (batches ++ [b])).ground_filtered ∧
    (runBatches fl initStats batches).low_altitude_filtered ≤
      (runBatches fl initStats (batches ++ [b])).low_altitude_filtered ∧
    (∀ bs : List (List Record),
      (runBatches fl initStats bs).filter_pass_rate =
        if (runBatches fl initStats bs).total_aircraft = 0 then 0
        else round1 ((((runBatches fl initStats bs).filtered_aircraft : ℚ) /
          ((runBatches fl initStats bs).total_aircraft : ℚ)) * 100)) := by
  have hsnoc := runBatches_snoc fl initStats batches b
  obtain ⟨c1, c2, c3, c4, c5⟩ :=
    processAircraftData_counters fl (runBatches fl initStats batches) b
  refine ⟨?_, ?_, ?_, ?_, ?_, ?_⟩
  · rw [hsnoc, c1]; omega
  · rw [hsnoc, c2]; omega
  · rw [hsnoc, c3]; omega
  · rw [hsnoc]; exact c4
  · rw [hsnoc]; exact c5
  · intro bs
    obtain ⟨i1, i2⟩ := statsConsistent_fold fl bs initStats statsConsistent_init
    by_cases h0 : (runBatches fl initStats bs).total_aircraft = 0
    · rw [if_pos h0]; exact (i1 h0).2
    · rw [if_neg h0]; exact i2 (Nat.pos_of_ne_zero h0)

theorem notifyLoop_map (accepted : List Record) :
    ∀ cbs : List Callback, notifyLoop accepted cbs = cbs.map (fun cb => cb accepted)
  | [] => rfl
  | cb :: rest => by
    rw [notifyLoop, notifyLoop_map accepted rest, List.map_cons]

/-- C8 (consumer callback isolation): when the accepted subset is non-empty
every registered consumer is invoked exactly once, in registration order, on
the accepted subset — the outcome trace is exactly the pointwise application
of the callback list, so a callback that raises neither prevents later
callbacks from running nor changes the stats or the returned accepted list
(the processor itself never propagates the exception: it is total); when the
accepted subset is empty no consumer is invoked. -/
theorem c8_callback_isolation (fl : Filters) (st : Stats) (cbs : List Callback)
    (batch : List Record) :
    ((process_aircraft_data fl st cbs batch).2.1 ≠ [] →
      (process_aircraft_data fl st cbs batch).2.2 =
        cbs.map (fun cb => cb (process_aircraft_data fl st cbs batch).2.1)) ∧
    ((process_aircraft_data fl st cbs batch).2.1 = [] →
      (process_aircraft_data fl st cbs batch).2.2 = []) ∧
    (process_aircraft_data fl st cbs batch).1 = (processAircraftData fl st batch).1 ∧
    (process_aircraft_data fl st cbs batch).2.1 = (processAircraftData fl st batch).2 := by
  refine ⟨?_, ?_, rfl, rfl⟩
  · intro hne
    cases hcb : cbs with
    | nil => simp [process_aircraft_data]
    | cons c rest =>
      have hne' : (processAircraftData fl st batch).2 ≠ [] := hne
      simp only [process_aircraft_data]
      rw [if_pos (by simp [List.isEmpty_iff, hne']), notifyLoop_map]
  · intro he
    have he' : (processAircraftData fl st batch).2 = [] := he
    simp only [process_aircraft_data]
    rw [if_neg (by simp [List.isEmpty_iff, he'])]

/-- Witness for C8: with two registered callbacks, the first of which raises,
a batch with one accepted record produces the full outcome trace (the raised
error is recorded, the second callback still runs); an all-rejected (empty)
batch produces no invocations. -/
theorem c8_callback_isolation_witness :
    ((process_aircraft_data defaultFilters initStats
        [fun _ => Except.error "boom", fun _ => Except.ok ()]
        [{ lat := some 1, lon := some 2, altitude := some 5000 }]).2.1 ≠ [] ∧
      (process_aircraft_data defaultFilters initStats
        [fun _ => Except.error "boom", fun _ => Except.ok ()]
        [{ lat := some 1, lon := some 2, altitude := some 5000 }]).2.2 =
          [Except.error "boom", Except.ok ()]) ∧
    ((process_aircraft_data defaultFilters initStats
        [fun _ => Except.error "boom", fun _ => Except.ok ()] []).2.1 = [] ∧
      (process_aircraft_data defaultFilters initStats
        [fun _ => Except.error "boom", fun _ => Except.ok ()] []).2.2 = []) := by
  constructor
  · have hne : (process_aircraft_data defaultFilters initStats
        [fun _ => Except.error "boom", fun _ => Except.ok ()]
        [{ lat := some 1, lon := some 2, altitude := some 5000 }]).2.1 ≠ [] := by
      simp [process_aircraft_data, processAircraftData, filterBatch, passesFilters,
        defaultFilters]
    refine ⟨hne, ?_⟩
    have h := (c8_callback_isolation defaultFilters initStats
      [fun _ => Except.error "boom", fun _ => Except.ok ()]
      [{ lat := some 1, lon := some 2, altitude := some 5000 }]).1 hne
    exact h.trans rfl
  · exact ⟨(c8_callback_isolation defaultFilters initStats
        [fun _ => Except.error "boom", fun _ => Except.ok ()] []).2.2.2,
      (c8_callback_isolation defaultFilters initStats
        [fun _ => Except.error "boom", fun _ => Except.ok ()] []).2.1 rfl⟩

end DataProcessor

namespace KMZGenerator

open DataProcessor (Record)

/-- One cached aircraft entry: the `minimal_aircraft` dict built at
src/kmz_generator.py lines 38-48.  `last_seen_timestamp` and `age_seconds`
are wall-clock quantities, modelled as `ℚ`. -/
structure Entry where
  adshex : String
  lat : Option Int
  lon : Option Int
  altitude : Int
  vert_rate : Int
  heading : Option Int
  speed : Option Int
  last_seen_timestamp : ℚ
  age_seconds : ℚ
deriving DecidableEq, Repr

/-- `aircraft.get("adshex")` followed by the falsy test `if not aircraft_id`
(lines 33-35): a missing key or an empty string yields no usable id. -/
def recordId (a : Record) : Option String :=
  match a.adshex with
  | none => none
  | some s => if s = "" then none else some s

/-- The `minimal_aircraft` dict (lines 38-48): positional/kinematic fields of
the record, `altitude` and `vert_rate` defaulting to 0, `last_seen_timestamp`
set to the current time, `age_seconds` reset to 0. -/
def minimalAircraft (a : Record) (id : String) (t : ℚ) : Entry :=
  { adshex := id, lat := a.lat, lon := a.lon,
    altitude := a.altitude.getD 0, vert_rate := a.vert_rate.getD 0,
    heading := a.heading, speed := a.speed,
    last_seen_timestamp := t, age_seconds := 0 }

/-- Python dict assignment `self.aircraft_database[aircraft_id] = ...`:
replace the value in place when the key exists (keeping its position), append
otherwise. -/
def upsert : List (String × Entry) → String → Entry → List (String × Entry)
  | [], k, e => [(k, e)]
  | p :: rest, k, e => if p.1 = k then (k, e) :: rest else p :: upsert rest k e

/-- The upsert loop over the incoming batch (lines 32-50): records without a
usable id are skipped (`continue`), all others are stored keyed by id, later
records overriding earlier ones. -/
def applyBatch (t : ℚ) : List (String × Entry) → List Record → List (String × Entry)
  | db, [] => db
  | db, a :: rest =>
    match recordId a with
    | none => applyBatch t db rest
    | some id => applyBatch t (upsert db id (minimalAircraft a id t)) rest

/-- The expiry sweep (lines 52-62): set every entry's `age_seconds` to
`current_time - last_seen_timestamp`, then delete the entries whose age
exceeds the persistence window.  Order is preserved. -/
def sweep (t : ℚ) (persistence : ℚ) (db : List (String × Entry)) :
    List (String × Entry) :=
  (db.map fun p => (p.1, { p.2 with age_seconds := t - p.2.last_seen_timestamp })).filter
    fun p => !decide (persistence < p.2.age_seconds)

/-- `OptimizedKMZGenerator` state: the configuration and the
`aircraft_database` dict (an association list in insertion order). -/
structure Gen where
  refresh_interval : ℚ
  persistence_time : ℚ
  aircraft_database : List (String × Entry)
deriving DecidableEq, Repr

/-- `__init__` (lines 18-23): empty database. -/
def initGen (refresh persistence : ℚ) : Gen :=
  { refresh_interval := refresh, persistence_time := persistence,
    aircraft_database := [] }

/-- `update_aircraft_data` (lines 25-62) executed at wall-clock time `t`
(the value of `time.time()` read at line 28): upsert every usable record,
then sweep. -/
def update_aircraft_data (g : Gen) (aircraft_list : List Record) (t : ℚ) : Gen :=
  { g with aircraft_database :=
      sweep t g.persistence_time (applyBatch t g.aircraft_database aircraft_list) }

/-- `get_current_aircraft` (lines 64-67): `list(self.aircraft_database.values())`.
Note it takes no time parameter: nothing is recomputed at snapshot time. -/
def get_current_aircraft (g : Gen) : List Entry :=
  g.aircraft_database.map Prod.snd

/-- Python-dict lookup by key (first — and under the key-uniqueness
invariant, only — entry with the key). -/
def lookupDb : List (String × Entry) → String → Option Entry
  | [], _ => none
  | p :: rest, k => if p.1 = k then some p.2 else lookupDb rest k

/-- C2 counterexample: `get_current_aircraft` does not derive ages at the
moment of the call.  After a single update at time 0, the cached entry keeps
`age_seconds = 0` forever; a snapshot read at time 5 therefore does not carry
`5 - last_seen = 5` as the claim requires. -/
theorem c2_snapshot_age_not_call_time :
    ¬ ∀ e ∈ get_current_aircraft
        (update_aircraft_data (initGen 1 15)
          [{ adshex := some "AC1", lat := some 51, lon := some 0,
             altitude := some 5000 }] 0),
        e.age_seconds = 5 - e.last_seen_timestamp := by
  intro h
  have hsnap : get_current_aircraft
      (update_aircraft_data (initGen 1 15)
        [{ adshex := some "AC1", lat := some 51, lon := some 0,
           altitude := some 5000 }] 0) =
      [{ adshex := "AC1", lat := some 51, lon := some 0, altitude := 5000,
         vert_rate := 0, heading := none, speed := none,
         last_seen_timestamp := 0, age_seconds := 0 }] := by
    have hs : ¬("AC1" = "") := by decide
    norm_num [get_current_aircraft, update_aircraft_data, applyBatch, recordId,
      minimalAircraft, upsert, sweep, initGen, hs]
  have h0 := h _ (by rw [hsnap]; exact List.mem_singleton.2 rfl)
  norm_num at h0

/-- C2 amended: `get_current_aircraft` returns the currently live entries,
each carrying the age computed at the most recent update's sweep — i.e.
`age_seconds = t - last_seen_timestamp` for the time `t` of the last
`update_aircraft_data` call, independent of when the snapshot is read. -/
theorem c2_amended_snapshot_age_from_sweep (g : Gen) (l : List Record) (t : ℚ) :
    ∀ e ∈ get_current_aircraft (update_aircraft_data g l t),
      e.age_seconds = t - e.last_seen_timestamp := by
  intro e he
  simp only [get_current_aircraft, update_aircraft_data, sweep] at he
  rcases List.mem_map.1 he with ⟨p, hp, rfl⟩
  rcases List.mem_filter.1 hp with ⟨hp2, _⟩
  rcases List.mem_map.1 hp2 with ⟨q, _, rfl⟩
  rfl

/-- Witness for the amended C2: after an update at time 7, the snapshot's
entry has `age_seconds = 0 = 7 - 7`. -/
theorem c2_amended_snapshot_age_from_sweep_witness :
    (⟨"AC1", some 51, some 0, 5000, 0, none, none, 7, 0⟩ : Entry) ∈
      get_current_aircraft (update_aircraft_data (initGen 1 15)
        [{ adshex := some "AC1", lat := some 51, lon := some 0,
           altitude := some 5000 }] 7) ∧
    (⟨"AC1", some 51, some 0, 5000, 0, none, none, 7, 0⟩ : Entry).age_seconds =
      7 - (⟨"AC1", some 51, some 0, 5000, 0, none, none, 7, 0⟩ :
        Entry).last_seen_timestamp := by
  have hm : (⟨"AC1", some 51, some 0, 5000, 0, none, none, 7, 0⟩ : Entry) ∈
      get_current_aircraft (update_aircraft_data (initGen 1 15)
        [{ adshex := some "AC1", lat := some 51, lon := some 0,
           altitude := some 5000 }] 7) := by
    have hs : ¬("AC1" = "") := by decide
    norm_num [get_current_aircraft, update_aircraft_data, applyBatch, recordId,
      minimalAircraft, upsert, sweep, initGen, hs]
  exact ⟨hm, c2_amended_snapshot_age_from_sweep _ _ _ _ hm⟩

/-- Splitting the batch list: the upsert loop is a left fold. -/
theorem applyBatch_append (t : ℚ) :
    ∀ (l1 : List Record) (db : List (String × Entry)) (l2 : List Record),
      applyBatch t db (l1 ++ l2) = applyBatch t (applyBatch t db l1) l2
  | [], _, _ => rfl
  | a :: rest, db, l2 => by
    cases h : recordId a with
    | none =>
      simp only [List.cons_append, applyBatch, h]
      exact applyBatch_append t rest db l2
    | some id =>
      simp only [List.cons_append, applyBatch, h]
      exact applyBatch_append t rest _ l2

/-- C10: an accepted record whose aircraft id is absent or empty is skipped
entirely by the cache update — the update of a batch containing it is the
update of the batch without it, wherever it occurs, so such a record never
creates or modifies a cache entry and never appears in a snapshot. -/
theorem c10_falsy_id_record_skipped (g : Gen) (t : ℚ) (a : Record)
    (l1 l2 : List Record) (hid : recordId a = none) :
    update_aircraft_data g (l1 ++ a :: l2) t = update_aircraft_data g (l1 ++ l2) t := by
  have hdb : applyBatch t g.aircraft_database (l1 ++ a :: l2) =
      applyBatch t g.aircraft_database (l1 ++ l2) := by
    rw [applyBatch_append, applyBatch_append]
    simp only [applyBatch, hid]
  simp only [update_aircraft_data, hdb]

/-- Witness for C10: a record with `adshex = ""` (which passes the altitude
filters) is invisible to the cache update. -/
theorem c10_falsy_id_record_skipped_witness :
    recordId { adshex := some "", lat := some 1, lon := some 2,
               altitude := some 5000 } = none ∧
    update_aircraft_data (initGen 1 15)
        ([] ++ ({ adshex := some "", lat := some 1, lon := some 2,
                  altitude := some 5000 } : Record) ::
          [{ adshex := some "AC1", lat := some 3 }]) 0 =
      update_aircraft_data (initGen 1 15)
        ([] ++ [{ adshex := some "AC1", lat := some 3 }]) 0 :=
  ⟨by simp [recordId], c10_falsy_id_record_skipped _ 0 _ [] _ (by simp [recordId])⟩

theorem lookupDb_upsert_self (k : String) (e : Entry) :
    ∀ db : List (String × Entry), lookupDb (upsert db k e) k = some e
  | [] => by simp [upsert, lookupDb]
  | p :: rest => by
    by_cases h : p.1 = k
    · simp [upsert, h, lookupDb]
    · simp [upsert, h, lookupDb, lookupDb_upsert_self k e rest]

theorem lookupDb_upsert_ne (k k' : String) (e : Entry) (hne : k' ≠ k) :
    ∀ db : List (String × Entry), lookupDb (upsert db k' e) k = lookupDb db k
  | [] => by simp [upsert, lookupDb, hne]
  | p :: rest => by
    by_cases h : p.1 = k'
    · simp [upsert, h, lookupDb, hne]
    · simp [upsert, h, lookupDb, lookupDb_upsert_ne k k' e hne rest]

/-- Records that never carry id `k` leave the entry stored under `k`
untouched. -/
theorem lookupDb_applyBatch_untouched (t : ℚ) (k : String) :
    ∀ (l : List Record) (db : List (String × Entry)),
      (∀ a ∈ l, recordId a ≠ some k) →
      lookupDb (applyBatch t db l) k = lookupDb db k
  | [], _, _ => rfl
  | a :: rest, db, h => by
    cases hid : recordId a with
    | none =>
      simp only [applyBatch, hid]
      exact lookupDb_applyBatch_untouched t k rest db
        (fun b hb => h b (List.mem_cons_of_mem _ hb))
    | some id =>
      have hne : id ≠ k := fun heq =>
        h a (List.mem_cons_self _ _) (hid.trans (by rw [heq]))
      simp only [applyBatch, hid]
      rw [lookupDb_applyBatch_untouched t k rest _
        (fun b hb => h b (List.mem_cons_of_mem _ hb)),
        lookupDb_upsert_ne k id _ hne]

/-- The last record carrying id `k` determines the stored entry. -/
theorem lookupDb_applyBatch_last (t : ℚ) (k : String) (a : Record)
    (ha : recordId a = some k) (l1 l2 : List Record)
    (h2 : ∀ b ∈ l2, recordId b ≠ some k) (db : List (String × Entry)) :
    lookupDb (applyBatch t db (l1 ++ a :: l2)) k = some (minimalAircraft a k t) := by
  rw [applyBatch_append]
  simp only [applyBatch, ha]
  rw [lookupDb_applyBatch_untouched t k l2 _ h2, lookupDb_upsert_self]

theorem mem_keys_upsert (k k' : String) (e : Entry) :
    ∀ db : List (String × Entry),
      k' ∈ (upsert db k e).map Prod.fst → k' ∈ db.map Prod.fst ∨ k' = k
  | [] => by simp [upsert]
  | p :: rest => by
    by_cases h : p.1 = k
    · simp only [upsert, if_pos h, List.map_cons, List.mem_cons]
      rintro (rfl | hmem)
      · exact Or.inr rfl
      · exact Or.inl (Or.inr hmem)
    · simp only [upsert, if_neg h, List.map_cons, List.mem_cons]
      rintro (rfl | hmem)
      · exact Or.inl (Or.inl rfl)
      · rcases mem_keys_upsert k k' e rest hmem with hin | heq
        · exact Or.inl (Or.inr hin)
        · exact Or.inr heq

theorem nodup_keys_upsert (k : String) (e : Entry) :
    ∀ db : List (String × Entry), (db.map Prod.fst).Nodup →
      ((upsert db k e).map Prod.fst).Nodup
  | [], _ => by simp [upsert]
  | p :: rest, hnd => by
    rw [List.map_cons, List.nodup_cons] at hnd
    by_cases h : p.1 = k
    · rw [upsert, if_pos h, List.map_cons, List.nodup_cons]
      exact ⟨h ▸ hnd.1, hnd.2⟩
    · rw [upsert, if_neg h, List.map_cons, List.nodup_cons]
      refine ⟨fun hmem => ?_, nodup_keys_upsert k e rest hnd.2⟩
      rcases mem_keys_upsert k p.1 e rest hmem with hin | heq
      · exact hnd.1 hin
      · exact h heq

theorem nodup_keys_applyBatch (t : ℚ) :
    ∀ (l : List Record) (db : List (String × Entry)),
      (db.map Prod.fst).Nodup → ((applyBatch t db l).map Prod.fst).Nodup
  | [], _, hnd => hnd
  | a :: rest, db, hnd => by
    cases hid : recordId a with
    | none =>
      simp only [applyBatch, hid]
      exact nodup_keys_applyBatch t rest db hnd
    | some id =>
      simp only [applyBatch, hid]
      exact nodup_keys_applyBatch t rest _ (nodup_keys_upsert id _ db hnd)

/-- One step of the sweep. -/
theorem sweep_cons (t per : ℚ) (p : String × Entry) (rest : List (String × Entry)) :
    sweep t per (p :: rest) =
      if per < t - p.2.last_seen_timestamp then sweep t per rest
      else (p.1, { p.2 with age_seconds := t - p.2.last_seen_timestamp }) ::
        sweep t per rest := by
  unfold sweep
  rw [List.map_cons, List.filter_cons]
  by_cases h : per < t - p.2.last_seen_timestamp
  · simp [h]
  · simp [h]

theorem sweep_keys_sublist (t per : ℚ) (db : List (String × Entry)) :
    ((sweep t per db).map Prod.fst).Sublist (db.map Prod.fst) := by
  have h2 := (List.filter_sublist (p := fun p => !decide (per < p.2.age_seconds))
    (db.map fun p =>
      (p.1, { p.2 with age_seconds := t - p.2.last_seen_timestamp }))).map Prod.fst
  rw [List.map_map] at h2
  exact h2

theorem lookupDb_eq_none_of_not_mem (k : String) :
    ∀ db : List (String × Entry), k ∉ db.map Prod.fst → lookupDb db k = none
  | [], _ => rfl
  | p :: rest, h => by
    rw [List.map_cons] at h
    rw [lookupDb, if_neg (fun he => h (by rw [← he]; exact List.mem_cons_self _ _))]
    exact lookupDb_eq_none_of_not_mem k rest (fun hm => h (List.mem_cons_of_mem _ hm))

/-- Under key uniqueness, the stored entry of a present pair is found by
lookup. -/
theorem lookupDb_of_mem_nodup :
    ∀ db : List (String × Entry), (db.map Prod.fst).Nodup →
      ∀ q ∈ db, lookupDb db q.1 = some q.2
  | [], _, q, hq => absurd hq (List.not_mem_nil _)
  | p :: rest, hnd, q, hq => by
    rw [List.map_cons, List.nodup_cons] at hnd
    rcases List.mem_cons.1 hq with rfl | hq'
    · rw [lookupDb, if_pos rfl]
    · rw [lookupDb]
      by_cases h : p.1 = q.1
      · exact absurd (h ▸ List.mem_map_of_mem Prod.fst hq') hnd.1
      · rw [if_neg h]
        exact lookupDb_of_mem_nodup rest hnd.2 q hq'

/-- Membership in the sweep output comes from a database pair whose
recomputed age is within the window. -/
theorem mem_sweep (t per : ℚ) (db : List (String × Entry)) (p : String × Entry)
    (hp : p ∈ sweep t per db) :
    ∃ q ∈ db, p = (q.1, { q.2 with age_seconds := t - q.2.last_seen_timestamp }) ∧
      ¬ (per < t - q.2.last_seen_timestamp) := by
  unfold sweep at hp
  rcases List.mem_filter.1 hp with ⟨h1, h2⟩
  rcases List.mem_map.1 h1 with ⟨q, hq, rfl⟩
  refine ⟨q, hq, rfl, ?_⟩
  simpa using h2

/-- Lookup after the sweep: the looked-up entry gets its age recomputed, or
disappears when expired. -/
theorem lookupDb_sweep (t per : ℚ) :
    ∀ db : List (String × Entry), (db.map Prod.fst).Nodup → ∀ k,
      lookupDb (sweep t per db) k =
        match lookupDb db k with
        | none => none
        | some e =>
          if per < t - e.last_seen_timestamp then none
          else some { e with age_seconds := t - e.last_seen_timestamp }
  | [], _, k => rfl
  | p :: rest, hnd, k => by
    rw [List.map_cons, List.nodup_cons] at hnd
    have ih := lookupDb_sweep t per rest hnd.2 k
    rw [sweep_cons]
    by_cases hexp : per < t - p.2.last_seen_timestamp
    · rw [if_pos hexp]
      by_cases hk : p.1 = k
      · subst hk
        have hnone : lookupDb (sweep t per rest) p.1 = none :=
          lookupDb_eq_none_of_not_mem _ _
            (fun hmem => hnd.1 ((sweep_keys_sublist t per rest).subset hmem))
        simp [hnone, lookupDb, hexp]
      · simp [lookupDb, hk, ih]
    · rw [if_neg hexp]
      by_cases hk : p.1 = k
      · subst hk
        simp [lookupDb, hexp]
      · simp [lookupDb, hk, ih]

theorem mem_upsert_ne (id : String) (e : Entry) :
    ∀ db : List (String × Entry), ∀ q ∈ upsert db id e, q.1 ≠ id → q ∈ db
  | [], q, hq, hne => by
    simp only [upsert, List.mem_singleton] at hq
    exact absurd (by rw [hq]) hne
  | p :: rest, q, hq, hne => by
    by_cases h : p.1 = id
    · rw [upsert, if_pos h] at hq
      rcases List.mem_cons.1 hq with rfl | hq'
      · exact absurd rfl hne
      · exact List.mem_cons_of_mem _ hq'
    · rw [upsert, if_neg h] at hq
      rcases List.mem_cons.1 hq with rfl | hq'
      · exact List.mem_cons_self _ _
      · exact List.mem_cons_of_mem _ (mem_upsert_ne id e rest q hq' hne)

/-- A pair whose key is never refreshed by the batch was already in the
database. -/
theorem mem_applyBatch_untouched (t : ℚ) (k : String) :
    ∀ (l : List Record) (db : List (String × Entry)),
      (∀ a ∈ l, recordId a ≠ some k) →
      ∀ q ∈ applyBatch t db l, q.1 = k → q ∈ db
  | [], _, _, q, hq, _ => hq
  | a :: rest, db, h, q, hq, hqk => by
    cases hid : recordId a with
    | none =>
      rw [applyBatch] at hq
      simp only [hid] at hq
      exact mem_applyBatch_untouched t k rest db
        (fun b hb => h b (List.mem_cons_of_mem _ hb)) q hq hqk
    | some id =>
      have hne : id ≠ k := fun heq =>
        h a (List.mem_cons_self _ _) (hid.trans (by rw [heq]))
      rw [applyBatch] at hq
      simp only [hid] at hq
      have hq' := mem_applyBatch_untouched t k rest _
        (fun b hb => h b (List.mem_cons_of_mem _ hb)) q hq hqk
      exact mem_upsert_ne id _ db q hq' (fun he => hne (by rw [← he, hqk]))

/-- C7 (cache eviction): under the key-uniqueness invariant, after
`update_aircraft_data(accepted, now)` executed at time `now = t`:
(1) every entry in a subsequent snapshot has recomputed age
`t - last_seen` within the persistence window; (2) an entry whose id is not
refreshed by the batch and whose age exceeds the window is deleted — no pair
under its key remains; (3) when the last batch record carrying id `k` is `a`,
the entry stored under `k` is exactly the minimal entry built from `a` with
`last_seen = t` and age 0 (last write wins; age 0 in the following snapshot),
provided the window is non-negative; (4) keys remain unique: at most one
entry per aircraft id. -/
theorem c7_cache_eviction (g : Gen) (l : List Record) (t : ℚ)
    (hnd : (g.aircraft_database.map Prod.fst).Nodup) :
    (∀ e ∈ get_current_aircraft (update_aircraft_data g l t),
      t - e.last_seen_timestamp ≤ g.persistence_time) ∧
    (∀ k e, lookupDb g.aircraft_database k = some e →
      (∀ a ∈ l, recordId a ≠ some k) →
      g.persistence_time < t - e.last_seen_timestamp →
      ∀ p ∈ (update_aircraft_data g l t).aircraft_database, p.1 ≠ k) ∧
    (∀ l1 a l2 k, l = l1 ++ a :: l2 → recordId a = some k →
      (∀ b ∈ l2, recordId b ≠ some k) → 0 ≤ g.persistence_time →
      lookupDb (update_aircraft_data g l t).aircraft_database k =
        some (minimalAircraft a k t)) ∧
    ((update_aircraft_data g l t).aircraft_database.map Prod.fst).Nodup := by
  refine ⟨?_, ?_, ?_, ?_⟩
  · intro e he
    simp only [get_current_aircraft, update_aircraft_data] at he
    rcases List.mem_map.1 he with ⟨p, hp, rfl⟩
    rcases mem_sweep t g.persistence_time _ p hp with ⟨q, _, rfl, hkeep⟩
    simpa using not_lt.1 hkeep
  · intro k e hlook hnotin hstale p hp hpk
    simp only [update_aircraft_data] at hp
    rcases mem_sweep t g.persistence_time _ p hp with ⟨q, hq, heq, hkeep⟩
    have hq1 : q.1 = k := by rw [heq] at hpk; exact hpk
    have hqdb : q ∈ g.aircraft_database :=
      mem_applyBatch_untouched t k l g.aircraft_database hnotin q hq hq1
    have hlq := lookupDb_of_mem_nodup g.aircraft_database hnd q hqdb
    rw [hq1, hlook] at hlq
    have he2 : e = q.2 := Option.some.inj hlq
    rw [he2] at hstale
    exact hkeep hstale
  · intro l1 a l2 k hl ha h2 hper
    subst hl
    simp only [update_aircraft_data]
    rw [lookupDb_sweep t g.persistence_time _
        (nodup_keys_applyBatch t _ _ hnd) k,
      lookupDb_applyBatch_last t k a ha l1 l2 h2]
    simp [minimalAircraft, not_lt.2 hper]
  · simp only [update_aircraft_data]
    exact List.Nodup.sublist (sweep_keys_sublist t g.persistence_time _)
      (nodup_keys_applyBatch t l g.aircraft_database hnd)

/-- Witness for C7: a cache holding one entry `OLD` last seen at time 0 is
updated at time 20 (window 15) with one record for id `NEW`: the snapshot
entry for `NEW` has age within the window, `OLD` is evicted, `NEW` is stored
as the minimal entry at time 20, and keys stay unique. -/
theorem c7_cache_eviction_witness :
    ((⟨1, 15, [("OLD", ⟨"OLD", some 1, some 2, 1000, 0, none, none, 0, 0⟩)]⟩ :
        Gen).aircraft_database.map Prod.fst).Nodup ∧
    (20 : ℚ) - (⟨"NEW", some 3, some 4, 2000, 0, none, none, 20, 0⟩ :
      Entry).last_seen_timestamp ≤
      (⟨1, 15, [("OLD", ⟨"OLD", some 1, some 2, 1000, 0, none, none, 0, 0⟩)]⟩ :
        Gen).persistence_time ∧
    (("NEW", (⟨"NEW", some 3, some 4, 2000, 0, none, none, 20, 0⟩ : Entry)) :
      String × Entry).1 ≠ "OLD" ∧
    lookupDb (update_aircraft_data
        (⟨1, 15, [("OLD", ⟨"OLD", some 1, some 2, 1000, 0, none, none, 0, 0⟩)]⟩ : Gen)
        [{ adshex := some "NEW", lat := some 3, lon := some 4,
           altitude := some 2000 }] 20).aircraft_database "NEW" =
      some (minimalAircraft
        { adshex := some "NEW", lat := some 3, lon := some 4,
          altitude := some 2000 } "NEW" 20) ∧
    ((update_aircraft_data
        (⟨1, 15, [("OLD", ⟨"OLD", some 1, some 2, 1000, 0, none, none, 0, 0⟩)]⟩ : Gen)
        [{ adshex := some "NEW", lat := some 3, lon := some 4,
           altitude := some 2000 }] 20).aircraft_database.map Prod.fst).Nodup := by
  have hs1 : ¬("NEW" = "") := by decide
  have hs2 : ¬("OLD" = "NEW") := by decide
  have hnd : (((⟨1, 15,
      [("OLD", ⟨"OLD", some 1, some 2, 1000, 0, none, none, 0, 0⟩)]⟩ :
        Gen)).aircraft_database.map Prod.fst).Nodup := by simp
  have hc7 := c7_cache_eviction
    (⟨1, 15, [("OLD", ⟨"OLD", some 1, some 2, 1000, 0, none, none, 0, 0⟩)]⟩ : Gen)
    [{ adshex := some "NEW", lat := some 3, lon := some 4,
       altitude := some 2000 }] 20 hnd
  have hdb : (update_aircraft_data
      (⟨1, 15, [("OLD", ⟨"OLD", some 1, some 2, 1000, 0, none, none, 0, 0⟩)]⟩ : Gen)
      [{ adshex := some "NEW", lat := some 3, lon := some 4,
         altitude := some 2000 }] 20).aircraft_database =
      [("NEW", ⟨"NEW", some 3, some 4, 2000, 0, none, none, 20, 0⟩)] := by
    norm_num [update_aircraft_data, applyBatch, recordId, minimalAircraft,
      upsert, sweep, hs1, hs2]
  refine ⟨hnd, ?_, ?_, ?_, hc7.2.2.2⟩
  · have hmem : (⟨"NEW", some 3, some 4, 2000, 0, none, none, 20, 0⟩ : Entry) ∈
        get_current_aircraft (update_aircraft_data
          (⟨1, 15, [("OLD", ⟨"OLD", some 1, some 2, 1000, 0, none, none, 0, 0⟩)]⟩ : Gen)
          [{ adshex := some "NEW", lat := some 3, lon := some 4,
             altitude := some 2000 }] 20) := by
      simp [get_current_aircraft, hdb]
    exact hc7.1 _ hmem
  · have hmem : (("NEW", (⟨"NEW", some 3, some 4, 2000, 0, none, none, 20, 0⟩ : Entry)) :
        String × Entry) ∈ (update_aircraft_data
          (⟨1, 15, [("OLD", ⟨"OLD", some 1, some 2, 1000, 0, none, none, 0, 0⟩)]⟩ : Gen)
          [{ adshex := some "NEW", lat := some 3, lon := some 4,
             altitude := some 2000 }] 20).aircraft_database := by
      rw [hdb]; exact List.mem_singleton.2 rfl
    refine hc7.2.1 "OLD" ⟨"OLD", some 1, some 2, 1000, 0, none, none, 0, 0⟩
      rfl ?_ (by norm_num) _ hmem
    intro a ha
    rw [List.mem_singleton.1 ha]
    simp [recordId, hs1, hs2]
  · exact hc7.2.2.1 [] _ [] "NEW" rfl (by simp [recordId, hs1])
      (fun b hb => absurd hb (List.not_mem_nil _)) (by norm_num)

end KMZGenerator

namespace FirehoseClient

open DataProcessor

/-- A decoded payload: the parsed object mapping aircraft ids to records
(`json.loads` result). -/
def Payload : Type := List (String × DataProcessor.Record)

/-- The gzip signature test of `_process_buffer` line 170:
`len(frame) >= 2 and frame[0] == 0x1f and frame[1] == 0x8b`. -/
def isGzipFrame (frame : List Nat) : Bool :=
  match frame with
  | b0 :: b1 :: _ => b0 == 0x1f && b1 == 0x8b
  | _ => false

/-- Per-frame decode step of `_process_buffer` (lines 167-186).  `gunzip`
models `gzip.decompress` and `parse` models `json.loads` — library functions
outside this repository, abstracted as arbitrary fallible functions passed as
parameters.  The `try/except` blocks turn every decompression or parse
failure into "no payload" (`except: pass` at line 176-178 inside the gzip
branch, the outer `except` at 185 for the plain branch), and an empty object
is treated as nothing by the `aircraft_data and aircraft_data != {}` guard
(lines 174, 182). -/
def processFrame (gunzip : List Nat → Except String (List Nat))
    (parse : List Nat → Except String Payload) (frame : List Nat) :
    Option Payload :=
  if isGzipFrame frame then
    match gunzip frame with
    | Except.error _ => none
    | Except.ok d =>
      match parse d with
      | Except.error _ => none
      | Except.ok payload => if payload.isEmpty then none else some payload
  else
    match parse frame with
    | Except.error _ => none
    | Except.ok payload => if payload.isEmpty then none else some payload

/-- The frame loop of `_process_buffer`: each decoded, non-empty payload is
passed synchronously to `DataProcessor.process_aircraft_data` (as its dict,
whose value list the processor takes); a frame decoding to nothing is
skipped.  The function is total: no frame failure escapes the loop.  Returns
the final stats and the accepted list of every processed payload, in order. -/
def processBufferFrames (gunzip : List Nat → Except String (List Nat))
    (parse : List Nat → Except String Payload) (fl : Filters) :
    Stats → List (List Nat) → Stats × List (List Record)
  | st, [] => (st, [])
  | st, f :: rest =>
    match processFrame gunzip parse f with
    | none => processBufferFrames gunzip parse fl st rest
    | some payload =>
      let r := processAircraftData fl st (payload.map Prod.snd)
      let q := processBufferFrames gunzip parse fl r.1 rest
      (q.1, r.2 :: q.2)

/-- C9 (decode-error containment): a frame whose decompression fails, whose
parse fails, or which decodes to an empty mapping yields no payload — no
records reach the downstream processor for it and no exception reaches the
caller (the decode step is a total function) — and the rest of the batch is
processed exactly as if the corrupt frame were absent. -/
theorem c9_decode_error_containment
    (gunzip : List Nat → Except String (List Nat))
    (parse : List Nat → Except String Payload)
    (fl : Filters) (st : Stats) (f : List Nat) (rest : List (List Nat)) :
    (∀ msg, isGzipFrame f = true → gunzip f = Except.error msg →
      processFrame gunzip parse f = none) ∧
    (∀ d msg, isGzipFrame f = true → gunzip f = Except.ok d →
      parse d = Except.error msg → processFrame gunzip parse f = none) ∧
    (∀ msg, isGzipFrame f = false → parse f = Except.error msg →
      processFrame gunzip parse f = none) ∧
    (isGzipFrame f = false → parse f = Except.ok [] →
      processFrame gunzip parse f = none) ∧
    (processFrame gunzip parse f = none →
      processBufferFrames gunzip parse fl st (f :: rest) =
        processBufferFrames gunzip parse fl st rest) := by
  refine ⟨?_, ?_, ?_, ?_, ?_⟩
  · intro msg hg he
    simp [processFrame, hg, he]
  · intro d msg hg hok he
    simp [processFrame, hg, hok, he]
  · intro msg hg he
    simp [processFrame, hg, he]
  · intro hg hok
    simp [processFrame, hg, hok, List.isEmpty]
  · intro hnone
    simp only [processBufferFrames, hnone]

/-- Witness for C9: concrete failing decoders on concrete frames — a gzip
frame whose decompression fails, a gzip frame whose decompressed bytes fail
to parse, a plain frame that fails to parse, a plain frame parsing to the
empty object — and the skip equation for the failing gzip frame followed by
one more frame. -/
theorem c9_decode_error_containment_witness :
    processFrame (fun _ => Except.error "bad gzip")
      (fun _ => Except.error "bad json") [0x1f, 0x8b, 0] = none ∧
    processFrame (fun _ => Except.ok [0x7b])
      (fun _ => Except.error "bad json") [0x1f, 0x8b, 0] = none ∧
    processFrame (fun _ => Except.ok [0x7b])
      (fun _ => Except.error "bad json") [0x41] = none ∧
    processFrame (fun _ => Except.ok [0x7b])
      (fun _ => Except.ok []) [0x41] = none ∧
    processBufferFrames (fun _ => Except.error "bad gzip")
        (fun _ => Except.error "bad json") DataProcessor.defaultFilters
        DataProcessor.initStats ([0x1f, 0x8b, 0] :: [[0x41]]) =
      processBufferFrames (fun _ => Except.error "bad gzip")
        (fun _ => Except.error "bad json") DataProcessor.defaultFilters
        DataProcessor.initStats [[0x41]] := by
  refine ⟨?_, ?_, ?_, ?_, ?_⟩
  · exact (c9_decode_error_containment (fun _ => Except.error "bad gzip")
      (fun _ => Except.error "bad json") DataProcessor.defaultFilters
      DataProcessor.initStats [0x1f, 0x8b, 0] []).1 "bad gzip" rfl rfl
  · exact (c9_decode_error_containment (fun _ => Except.ok [0x7b])
      (fun _ => Except.error "bad json") DataProcessor.defaultFilters
      DataProcessor.initStats [0x1f, 0x8b, 0] []).2.1 [0x7b] "bad json" rfl rfl rfl
  · exact (c9_decode_error_containment (fun _ => Except.ok [0x7b])
      (fun _ => Except.error "bad json") DataProcessor.defaultFilters
      DataProcessor.initStats [0x41] []).2.2.1 "bad json" rfl rfl
  · exact (c9_decode_error_containment (fun _ => Except.ok [0x7b])
      (fun _ => Except.ok []) DataProcessor.defaultFilters
      DataProcessor.initStats [0x41] []).2.2.2.1 rfl rfl
  · exact (c9_decode_error_containment (fun _ => Except.error "bad gzip")
      (fun _ => Except.error "bad json") DataProcessor.defaultFilters
      DataProcessor.initStats [0x1f, 0x8b, 0] [[0x41]]).2.2.2.2 rfl

end FirehoseClient
